import Mathlib

/-!
Verification of the semihosting RIFF message codec.

The repository ships a fuzz-corpus generator (`fuzz/gen_malformed_corpus.py`)
for a RIFF-based semihosting message codec.  The generator's byte-level
helpers (`u32le`, `fourcc`) and the corpus buffers it writes are embedded
here directly from that source.  The codec itself (chunk reader,
configuration negotiator, call decoder, response encoder, message façade)
is not present in the repository sources; those components are modelled
from the specification, as marked on each definition.
-/

deriving instance DecidableEq for Except

namespace Semihost

/-- Little-endian byte decomposition: `natToLEBytes k n` is the `k`
low-order bytes of `n`, least significant first. -/
def natToLEBytes : Nat → Nat → List Nat
  | 0, _ => []
  | k + 1, n => n % 256 :: natToLEBytes k (n / 256)

/-- Recompose a little-endian byte list into a natural number. -/
def natFromLEBytes : List Nat → Nat
  | [] => 0
  | b :: bs => b + 256 * natFromLEBytes bs

/-- From src/fuzz/gen_malformed_corpus.py: `fourcc(s)` returns the ASCII
bytes of `s` (used for 4-byte chunk identifiers). -/
def fourcc (s : String) : List Nat := s.data.map Char.toNat

/-- From src/fuzz/gen_malformed_corpus.py: `u32le(val)` packs
`val & 0xFFFFFFFF` as a little-endian unsigned 32-bit value.  Python's
`& 0xFFFFFFFF` on an arbitrary-precision integer (negative values use the
two's-complement convention) coincides with the Euclidean remainder
modulo `2 ^ 32`, which is what `Int.emod` computes here. -/
def u32le (val : Int) : List Nat := natToLEBytes 4 (val % (2 ^ 32 : Int)).toNat

def tagRIFF : List Nat := fourcc "RIFF"

def tagSEMI : List Nat := fourcc "SEMI"

def tagCNFG : List Nat := fourcc "CNFG"

def tagCALL : List Nat := fourcc "CALL"

def tagPARM : List Nat := fourcc "PARM"

def tagDATA : List Nat := fourcc "DATA"

def tagRETN : List Nat := fourcc "RETN"

def tagERRO : List Nat := fourcc "ERRO"

/-- Byte order negotiated by the `CNFG` chunk. -/
inductive Endianness
  | Little
  | Big
deriving DecidableEq, Repr

/-- Modelled from the spec: negotiated remote configuration,
`int_size, ptr_size ∈ {1,2,4,8}` once validated, plus byte order. -/
structure Configuration where
  int_size : Nat
  ptr_size : Nat
  endianness : Endianness
deriving DecidableEq, Repr

/-- Modelled from the spec (section 7): the codec's error kinds. -/
inductive CodecError
  | Truncated
  | SizeOverflow
  | SizeExceedsBuffer
  | IncompletePayload
  | InvalidFieldValue
  | MalformedParameterList
  | ConfigurationMissing
deriving DecidableEq, Repr

/-- A parsed chunk: 4-byte identifier, declared (unpadded) payload size,
and the payload bytes themselves. -/
structure Chunk where
  identifier : List Nat
  declared_size : Nat
  payload : List Nat
deriving DecidableEq, Repr

/-- The declared size field of the chunk whose header starts at `cursor`:
an unsigned 32-bit little-endian integer at offset `cursor + 4`. -/
def readChunkSize (buf : List Nat) (cursor : Nat) : Nat :=
  natFromLEBytes ((buf.drop (cursor + 4)).take 4)

/-- Modelled from the spec: the Chunk Reader's `next_chunk` (section 4.1),
missing from the repository sources.  `limit` is the end of the enclosing
container (the number of bytes actually available to this walk).
Fails `Truncated` without 8 header bytes; reads the declared size as
u32 little-endian; fails `SizeOverflow` when `cursor + 8 + declared_size`
would not fit in 32 bits; fails `SizeExceedsBuffer` when the payload end
exceeds the available bytes; fails `Truncated` when the declared size is
odd and the single padding byte is unavailable; otherwise yields the chunk
and the cursor advanced past payload plus padding. -/
def next_chunk (buf : List Nat) (limit cursor : Nat) :
    Except CodecError (Chunk × Nat) :=
  if limit < cursor + 8 then .error .Truncated
  else if 2 ^ 32 ≤ cursor + 8 + readChunkSize buf cursor then .error .SizeOverflow
  else if limit < cursor + 8 + readChunkSize buf cursor then .error .SizeExceedsBuffer
  else if readChunkSize buf cursor % 2 = 1 ∧
      limit < cursor + 8 + readChunkSize buf cursor + 1 then .error .Truncated
  else .ok (⟨(buf.drop cursor).take 4, readChunkSize buf cursor,
      (buf.drop (cursor + 8)).take (readChunkSize buf cursor)⟩,
      cursor + 8 + readChunkSize buf cursor + readChunkSize buf cursor % 2)

/-- Modelled from the spec: the Configuration Negotiator (section 4.2),
missing from the repository sources.  Requires a payload of at least
4 bytes (`int_size`, `ptr_size`, `endianness`, `reserved`), else
`IncompletePayload`; `int_size` and `ptr_size` must lie in {1,2,4,8} and
the endianness byte must be one of the two recognized values (0 little,
1 big), else `InvalidFieldValue`; the reserved byte is never
interpreted. -/
def negotiate (payload : List Nat) : Except CodecError Configuration :=
  if payload.length < 4 then .error .IncompletePayload
  else
    if ¬ (payload.getD 0 0 = 1 ∨ payload.getD 0 0 = 2 ∨
        payload.getD 0 0 = 4 ∨ payload.getD 0 0 = 8) then .error .InvalidFieldValue
    else if ¬ (payload.getD 1 0 = 1 ∨ payload.getD 1 0 = 2 ∨
        payload.getD 1 0 = 4 ∨ payload.getD 1 0 = 8) then .error .InvalidFieldValue
    else if payload.getD 2 0 = 0 then
      .ok ⟨payload.getD 0 0, payload.getD 1 0, .Little⟩
    else if payload.getD 2 0 = 1 then
      .ok ⟨payload.getD 0 0, payload.getD 1 0, .Big⟩
    else .error .InvalidFieldValue

/-- Modelled from the spec: a decoded call request (section 3),
missing from the repository sources. -/
structure CallRequest where
  opcode : Nat
  parameters : List Nat
  data : Option (List Nat)
deriving DecidableEq, Repr

/-- Modelled from the spec: the width of one `PARM` slot,
`max int_size ptr_size` (section 4.3). -/
def slot_width (cfg : Configuration) : Nat := max cfg.int_size cfg.ptr_size

/-- Decode a byte list as an integer in the given byte order. -/
def decInt (e : Endianness) (bs : List Nat) : Nat :=
  match e with
  | .Little => natFromLEBytes bs
  | .Big => natFromLEBytes bs.reverse

/-- Split a payload into fixed-width slots and decode each.  The fuel
argument (instantiated with the payload length, an upper bound on the
slot count since slots are at least one byte wide) makes the recursion
structural. -/
def read_slots (e : Endianness) (w : Nat) : Nat → List Nat → List Nat
  | _, [] => []
  | 0, _ => []
  | fuel + 1, payload => decInt e (payload.take w) :: read_slots e w fuel (payload.drop w)

/-- Modelled from the spec: decoding a `PARM` payload (section 4.3),
missing from the repository sources.  A payload whose length is not an
exact multiple of the slot width fails `MalformedParameterList`. -/
def parse_parm (cfg : Configuration) (payload : List Nat) :
    Except CodecError (List Nat) :=
  if payload.length % slot_width cfg ≠ 0 then .error .MalformedParameterList
  else .ok (read_slots cfg.endianness (slot_width cfg) payload.length payload)

/-- Modelled from the spec: the sub-chunk walk inside a `CALL` payload
(section 4.3), missing from the repository sources.  `PARM` sub-chunks
contribute parameter slots, `DATA` sub-chunks supply the opaque data
buffer, unknown identifiers are skipped; reader errors propagate.  The
fuel argument (instantiated with a value at least the payload length
plus one, an upper bound on the chunk count since a chunk consumes at
least 8 bytes) makes the recursion structural and is never exhausted
when so instantiated. -/
def walk_call_sub (cfg : Configuration) : Nat → List Nat → Nat → Nat →
    List Nat → Option (List Nat) →
    Except CodecError (List Nat × Option (List Nat))
  | 0, _, _, _, _, _ => .error .Truncated
  | fuel + 1, buf, limit, cursor, params, data =>
    if limit ≤ cursor then .ok (params, data)
    else
      match next_chunk buf limit cursor with
      | .error e => .error e
      | .ok (ck, c2) =>
        if ck.identifier = tagPARM then
          match parse_parm cfg ck.payload with
          | .error e => .error e
          | .ok ps => walk_call_sub cfg fuel buf limit c2 (params ++ ps) data
        else if ck.identifier = tagDATA then
          walk_call_sub cfg fuel buf limit c2 params (some ck.payload)
        else walk_call_sub cfg fuel buf limit c2 params data

/-- Modelled from the spec: the Call Decoder (section 4.3), missing from
the repository sources.  Requires a payload of at least 4 bytes for the
opcode header, else `IncompletePayload`; reads the opcode at
`config.int_size` width in the negotiated byte order; walks the remainder
as a nested sub-container of `PARM` and `DATA` chunks. -/
def decode_call (payload : List Nat) (cfg : Configuration) :
    Except CodecError CallRequest :=
  if payload.length < 4 then .error .IncompletePayload
  else
    match walk_call_sub cfg (payload.length + 1) payload payload.length
        cfg.int_size [] none with
    | .error e => .error e
    | .ok (ps, d) => .ok ⟨decInt cfg.endianness (payload.take cfg.int_size), ps, d⟩

/-- Modelled from the spec: the per-message state machine walking the
top-level chunks (section 4.4), missing from the repository sources.
`CNFG` chunks (re-)negotiate the configuration, last write wins; a
`CALL` chunk before any configuration fails `ConfigurationMissing`;
other identifiers are skipped.  The fuel argument (instantiated with a
value at least the buffer length plus one, an upper bound on the chunk
count since a chunk consumes at least 8 bytes) makes the recursion
structural and is never exhausted when so instantiated. -/
def walkChunks : Nat → List Nat → Nat → Nat → Option Configuration →
    Except CodecError (List (Configuration × CallRequest))
  | 0, _, _, _, _ => .error .Truncated
  | fuel + 1, buf, limit, cursor, config =>
    if limit ≤ cursor then .ok []
    else
      match next_chunk buf limit cursor with
      | .error e => .error e
      | .ok (ck, c2) =>
        if ck.identifier = tagCNFG then
          match negotiate ck.payload with
          | .error e => .error e
          | .ok cfg => walkChunks fuel buf limit c2 (some cfg)
        else if ck.identifier = tagCALL then
          match config with
          | none => .error .ConfigurationMissing
          | some cfg =>
            match decode_call ck.payload cfg with
            | .error e => .error e
            | .ok req =>
              match walkChunks fuel buf limit c2 config with
              | .error e => .error e
              | .ok rest => .ok ((cfg, req) :: rest)
        else walkChunks fuel buf limit c2 config

/-- Modelled from the spec: the message façade `decode_message`
(sections 3 and 6), missing from the repository sources.  Checks the
`"RIFF"` tag, reads the declared container size as u32 little-endian,
fails `SizeExceedsBuffer` when declared size + 8 exceeds the physical
buffer length, requires the minimum declared size 4 and the `"SEMI"`
form type, then walks the chunk region `[12, 8 + size)`. -/
def decode_message (buf : List Nat) :
    Except CodecError (List (Configuration × CallRequest)) :=
  if buf.length < 8 then .error .Truncated
  else if buf.take 4 ≠ tagRIFF then .error .InvalidFieldValue
  else if buf.length < 8 + natFromLEBytes ((buf.drop 4).take 4) then
    .error .SizeExceedsBuffer
  else if natFromLEBytes ((buf.drop 4).take 4) < 4 then .error .Truncated
  else if (buf.drop 8).take 4 ≠ tagSEMI then .error .InvalidFieldValue
  else walkChunks (buf.length + 1) buf (8 + natFromLEBytes ((buf.drop 4).take 4))
    12 none

/-- The raw chunk sequence of a container region, using the same reader
and the same fuel convention as `walkChunks`. -/
def list_chunks : Nat → List Nat → Nat → Nat → Except CodecError (List Chunk)
  | 0, _, _, _ => .error .Truncated
  | fuel + 1, buf, limit, cursor =>
    if limit ≤ cursor then .ok []
    else
      match next_chunk buf limit cursor with
      | .error e => .error e
      | .ok (ck, c2) =>
        match list_chunks fuel buf limit c2 with
        | .error e => .error e
        | .ok rest => .ok (ck :: rest)

/-- Encode an integer at width `k` in the given byte order. -/
def encInt (e : Endianness) (k n : Nat) : List Nat :=
  match e with
  | .Little => natToLEBytes k n
  | .Big => (natToLEBytes k n).reverse

/-- Modelled from the spec: the Response Encoder's `encode_return`
(section 4.4), missing from the repository sources.  Writes the `RETN`
identifier, a declared size of `2 * int_size` as u32 little-endian, then
`value` and `errno` each at `int_size` bytes in the negotiated byte
order, plus the common odd-size padding byte (never needed here since
`2 * int_size` is even). -/
def encode_return (value errno : Nat) (cfg : Configuration) : List Nat :=
  tagRETN ++ natToLEBytes 4 (2 * cfg.int_size) ++
    encInt cfg.endianness cfg.int_size value ++
    encInt cfg.endianness cfg.int_size errno ++
    (if (2 * cfg.int_size) % 2 = 1 then [0] else [])

/-- Modelled from the spec: the Response Encoder's `encode_error`
(section 4.4), missing from the repository sources: `ERRO` identifier,
declared size 4, and the code as a fixed 4-byte little-endian field. -/
def encode_error (code : Nat) : List Nat :=
  tagERRO ++ natToLEBytes 4 4 ++ natToLEBytes 4 (code % 2 ^ 32)

/-- Modelled from the spec: decoding a `RETN` payload (sections 6 and 7),
missing from the repository sources.  Requires at least `2 * int_size`
payload bytes, else `IncompletePayload`; reads `value` then `errno`, each
at `int_size` bytes in the negotiated byte order. -/
def decode_retn (payload : List Nat) (cfg : Configuration) :
    Except CodecError (Nat × Nat) :=
  if payload.length < 2 * cfg.int_size then .error .IncompletePayload
  else .ok (decInt cfg.endianness (payload.take cfg.int_size),
    decInt cfg.endianness ((payload.drop cfg.int_size).take cfg.int_size))

/-- Parse an encoded response buffer as one chunk and decode it as a
`RETN` payload: the decode direction of the round trip. -/
def decode_response (buf : List Nat) (cfg : Configuration) :
    Except CodecError (Nat × Nat) :=
  match next_chunk buf buf.length 0 with
  | .error e => .error e
  | .ok (ck, _) =>
    if ck.identifier = tagRETN then decode_retn ck.payload cfg
    else .error .InvalidFieldValue

/-! The corpus buffers written by src/fuzz/gen_malformed_corpus.py, one
definition per `write_corpus` call, transcribed byte for byte from the
builder expressions in the source. -/

def malformed_riff_size_zero : List Nat :=
  fourcc "RIFF" ++ u32le 0 ++ fourcc "SEMI"

def malformed_riff_size_neg1 : List Nat :=
  fourcc "RIFF" ++ u32le 0xFFFFFFFF ++ fourcc "SEMI"

def malformed_riff_size_min : List Nat :=
  fourcc "RIFF" ++ u32le 4 ++ fourcc "SEMI"

def malformed_riff_size_huge : List Nat :=
  fourcc "RIFF" ++ u32le 1000 ++ fourcc "SEMI"

def malformed_riff_size_overflow : List Nat :=
  fourcc "RIFF" ++ u32le 0xFFFFFFF0 ++ fourcc "SEMI"

def malformed_cnfg_size_zero : List Nat :=
  fourcc "RIFF" ++ u32le 12 ++ fourcc "SEMI" ++
  fourcc "CNFG" ++ u32le 0

def malformed_cnfg_size_neg1 : List Nat :=
  fourcc "RIFF" ++ u32le 12 ++ fourcc "SEMI" ++
  fourcc "CNFG" ++ u32le 0xFFFFFFFF

def malformed_cnfg_size_huge : List Nat :=
  fourcc "RIFF" ++ u32le 12 ++ fourcc "SEMI" ++
  fourcc "CNFG" ++ u32le 1000 ++ [4, 4, 0, 0]

def malformed_cnfg_size_odd : List Nat :=
  fourcc "RIFF" ++ u32le 12 ++ fourcc "SEMI" ++
  fourcc "CNFG" ++ u32le 3 ++ [4, 4, 0]

def malformed_call_size_zero : List Nat :=
  fourcc "RIFF" ++ u32le 20 ++ fourcc "SEMI" ++
  fourcc "CNFG" ++ u32le 4 ++ [4, 4, 0, 0] ++
  fourcc "CALL" ++ u32le 0

def malformed_call_size_neg1 : List Nat :=
  fourcc "RIFF" ++ u32le 20 ++ fourcc "SEMI" ++
  fourcc "CNFG" ++ u32le 4 ++ [4, 4, 0, 0] ++
  fourcc "CALL" ++ u32le 0xFFFFFFFF ++ [0x01, 0, 0, 0]

def malformed_parm_size_neg1 : List Nat :=
  fourcc "RIFF" ++ u32le 36 ++ fourcc "SEMI" ++
  fourcc "CNFG" ++ u32le 4 ++ [4, 4, 0, 0] ++
  fourcc "CALL" ++ u32le 16 ++ [0x01, 0, 0, 0] ++
  fourcc "PARM" ++ u32le 0xFFFFFFFF ++ [0, 0, 0, 0, 0x42, 0, 0, 0]

def malformed_parm_size_overflow : List Nat :=
  fourcc "RIFF" ++ u32le 36 ++ fourcc "SEMI" ++
  fourcc "CNFG" ++ u32le 4 ++ [4, 4, 0, 0] ++
  fourcc "CALL" ++ u32le 16 ++ [0x01, 0, 0, 0] ++
  fourcc "PARM" ++ u32le 1000 ++ [0, 0, 0, 0, 0x42, 0, 0, 0]

def malformed_data_size_neg1 : List Nat :=
  fourcc "RIFF" ++ u32le 36 ++ fourcc "SEMI" ++
  fourcc "CNFG" ++ u32le 4 ++ [4, 4, 0, 0] ++
  fourcc "CALL" ++ u32le 16 ++ [0x01, 0, 0, 0] ++
  fourcc "DATA" ++ u32le 0xFFFFFFFF ++ [0, 0, 0, 0] ++
  [104, 101, 108, 108, 111]

def malformed_data_size_zero : List Nat :=
  fourcc "RIFF" ++ u32le 28 ++ fourcc "SEMI" ++
  fourcc "CNFG" ++ u32le 4 ++ [4, 4, 0, 0] ++
  fourcc "CALL" ++ u32le 12 ++ [0x01, 0, 0, 0] ++
  fourcc "DATA" ++ u32le 0

def malformed_retn_size_zero : List Nat :=
  fourcc "RIFF" ++ u32le 12 ++ fourcc "SEMI" ++
  fourcc "RETN" ++ u32le 0

def malformed_retn_size_neg1 : List Nat :=
  fourcc "RIFF" ++ u32le 12 ++ fourcc "SEMI" ++
  fourcc "RETN" ++ u32le 0xFFFFFFFF ++ [0, 0, 0, 0, 0, 0, 0, 0]

def malformed_retn_size_short : List Nat :=
  fourcc "RIFF" ++ u32le 16 ++ fourcc "SEMI" ++
  fourcc "RETN" ++ u32le 4 ++ [0, 0, 0, 0]

def malformed_erro_size_zero : List Nat :=
  fourcc "RIFF" ++ u32le 12 ++ fourcc "SEMI" ++
  fourcc "ERRO" ++ u32le 0

def malformed_erro_size_one : List Nat :=
  fourcc "RIFF" ++ u32le 14 ++ fourcc "SEMI" ++
  fourcc "ERRO" ++ u32le 1 ++ [0x01, 0]

def malformed_erro_size_neg1 : List Nat :=
  fourcc "RIFF" ++ u32le 12 ++ fourcc "SEMI" ++
  fourcc "ERRO" ++ u32le 0xFFFFFFFF

def malformed_multi_chunk_wrap : List Nat :=
  fourcc "RIFF" ++ u32le 24 ++ fourcc "SEMI" ++
  fourcc "CNFG" ++ u32le 4 ++ [4, 4, 0, 0] ++
  fourcc "CALL" ++ u32le 0x7FFFFFFF

def malformed_chunk_exact_end : List Nat :=
  fourcc "RIFF" ++ u32le 12 ++ fourcc "SEMI" ++
  fourcc "CNFG" ++ u32le 4 ++ [4, 4, 0, 0]

def malformed_chunk_header_only : List Nat :=
  fourcc "RIFF" ++ u32le 8 ++ fourcc "SEMI" ++
  fourcc "CNFG" ++ u32le 4

def malformed_cnfg_int_size_zero : List Nat :=
  fourcc "RIFF" ++ u32le 12 ++ fourcc "SEMI" ++
  fourcc "CNFG" ++ u32le 4 ++ [0, 4, 0, 0]

def malformed_cnfg_int_size_huge : List Nat :=
  fourcc "RIFF" ++ u32le 12 ++ fourcc "SEMI" ++
  fourcc "CNFG" ++ u32le 4 ++ [255, 4, 0, 0]

def malformed_cnfg_ptr_size_zero : List Nat :=
  fourcc "RIFF" ++ u32le 12 ++ fourcc "SEMI" ++
  fourcc "CNFG" ++ u32le 4 ++ [4, 0, 0, 0]

def malformed_cnfg_huge_with_call : List Nat :=
  fourcc "RIFF" ++ u32le 28 ++ fourcc "SEMI" ++
  fourcc "CNFG" ++ u32le 4 ++ [255, 4, 0, 0] ++
  fourcc "CALL" ++ u32le 4 ++ [0x13, 0, 0, 0]

def malformed_cnfg_zero_with_call : List Nat :=
  fourcc "RIFF" ++ u32le 28 ++ fourcc "SEMI" ++
  fourcc "CNFG" ++ u32le 4 ++ [0, 4, 0, 0] ++
  fourcc "CALL" ++ u32le 4 ++ [0x13, 0, 0, 0]

def malformed_cnfg_ptr_zero_with_call : List Nat :=
  fourcc "RIFF" ++ u32le 28 ++ fourcc "SEMI" ++
  fourcc "CNFG" ++ u32le 4 ++ [4, 0, 0, 0] ++
  fourcc "CALL" ++ u32le 4 ++ [0x13, 0, 0, 0]

/-- Every buffer src/fuzz/gen_malformed_corpus.py writes, in source
order. -/
def corpus_entries : List (List Nat) :=
  [malformed_riff_size_zero, malformed_riff_size_neg1, malformed_riff_size_min,
   malformed_riff_size_huge, malformed_riff_size_overflow,
   malformed_cnfg_size_zero, malformed_cnfg_size_neg1, malformed_cnfg_size_huge,
   malformed_cnfg_size_odd,
   malformed_call_size_zero, malformed_call_size_neg1,
   malformed_parm_size_neg1, malformed_parm_size_overflow,
   malformed_data_size_neg1, malformed_data_size_zero,
   malformed_retn_size_zero, malformed_retn_size_neg1, malformed_retn_size_short,
   malformed_erro_size_zero, malformed_erro_size_one, malformed_erro_size_neg1,
   malformed_multi_chunk_wrap, malformed_chunk_exact_end,
   malformed_chunk_header_only,
   malformed_cnfg_int_size_zero, malformed_cnfg_int_size_huge,
   malformed_cnfg_ptr_size_zero,
   malformed_cnfg_huge_with_call, malformed_cnfg_zero_with_call,
   malformed_cnfg_ptr_zero_with_call]

/-! Supporting lemmas. -/

theorem natToLEBytes_length (k n : Nat) : (natToLEBytes k n).length = k := by
  induction k generalizing n with
  | zero => simp [natToLEBytes]
  | succ k ih => simp [natToLEBytes, ih]

theorem natToLEBytes_lt_256 (k n : Nat) : ∀ b ∈ natToLEBytes k n, b < 256 := by
  induction k generalizing n with
  | zero => simp [natToLEBytes]
  | succ k ih =>
    simp only [natToLEBytes, List.mem_cons]
    rintro b (rfl | hb)
    · exact Nat.mod_lt _ (by norm_num)
    · exact ih _ b hb

theorem natFromLEBytes_natToLEBytes (k n : Nat) :
    natFromLEBytes (natToLEBytes k n) = n % 2 ^ (8 * k) := by
  induction k generalizing n with
  | zero => simp [natToLEBytes, natFromLEBytes, Nat.mod_one]
  | succ k ih =>
    have hpow : (2 : Nat) ^ (8 * (k + 1)) = 256 * 2 ^ (8 * k) := by
      rw [show 8 * (k + 1) = 8 + 8 * k by ring, pow_add]
      norm_num
    simp only [natToLEBytes, natFromLEBytes, ih]
    rw [hpow, Nat.mod_mul]

theorem encInt_length (e : Endianness) (k n : Nat) : (encInt e k n).length = k := by
  cases e <;> simp [encInt, natToLEBytes_length]

theorem decInt_encInt (e : Endianness) (k n : Nat) (h : n < 2 ^ (8 * k)) :
    decInt e (encInt e k n) = n := by
  cases e <;>
    simp [decInt, encInt, natFromLEBytes_natToLEBytes, Nat.mod_eq_of_lt h]

/-- Full characterization of a successful `next_chunk` read. -/
theorem next_chunk_ok_char {buf : List Nat} {limit cursor : Nat} {ck : Chunk}
    {c2 : Nat} (h : next_chunk buf limit cursor = .ok (ck, c2)) :
    cursor + 8 ≤ limit ∧ ck.declared_size = readChunkSize buf cursor ∧
    cursor + 8 + ck.declared_size ≤ limit ∧
    ck.identifier = (buf.drop cursor).take 4 ∧
    ck.payload = (buf.drop (cursor + 8)).take ck.declared_size ∧
    c2 = cursor + 8 + ck.declared_size + ck.declared_size % 2 ∧
    (ck.declared_size % 2 = 1 → cursor + 8 + ck.declared_size + 1 ≤ limit) := by
  by_cases hA : limit < cursor + 8
  · simp [next_chunk, hA] at h
  by_cases hB : (4294967296 : Nat) ≤ cursor + 8 + readChunkSize buf cursor
  · simp [next_chunk, hA, hB] at h
  by_cases hC : limit < cursor + 8 + readChunkSize buf cursor
  · simp [next_chunk, hA, hB, hC] at h
  by_cases hD : readChunkSize buf cursor % 2 = 1 ∧
      limit < cursor + 8 + readChunkSize buf cursor + 1
  · simp [next_chunk, hA, hB, hC, hD] at h
  · simp [next_chunk, hA, hB, hC, hD] at h
    obtain ⟨hck, hc2⟩ := h
    subst hck
    subst hc2
    dsimp only
    refine ⟨by omega, rfl, by omega, rfl, rfl, rfl, ?_⟩
    intro hodd
    have hnd := not_and.mp hD hodd
    omega

/-- C1: whenever the chunk header is readable and the declared size `s` at
cursor `c` makes `c + 8 + s` overflow 32 bits, `next_chunk` fails with
`SizeOverflow` and never returns a chunk: the offset arithmetic is checked
and never silently wraps. -/
theorem next_chunk_size_overflow (buf : List Nat) (limit cursor s : Nat)
    (hhdr : cursor + 8 ≤ limit) (hs : readChunkSize buf cursor = s)
    (hov : 2 ^ 32 ≤ cursor + 8 + s) :
    next_chunk buf limit cursor = .error .SizeOverflow ∧
    ∀ ck c2, next_chunk buf limit cursor ≠ .ok (ck, c2) := by
  have hA : ¬ limit < cursor + 8 := by omega
  have hov4 : (4294967296 : Nat) ≤ cursor + 8 + s := by omega
  have h : next_chunk buf limit cursor = .error .SizeOverflow := by
    simp [next_chunk, hA, hs, hov4]
  exact ⟨h, fun ck c2 hok => by rw [h] at hok; exact absurd hok (by simp)⟩

theorem next_chunk_size_overflow_wit :
    next_chunk ([0] ++ fourcc "CNFG" ++ [248, 255, 255, 255]) 9 1 =
      .error .SizeOverflow :=
  (next_chunk_size_overflow ([0] ++ fourcc "CNFG" ++ [248, 255, 255, 255])
    9 1 4294967288 (by norm_num) (by decide) (by norm_num)).1

set_option maxRecDepth 4096 in
/-- C2: `negotiate` accepts a `CNFG` payload only when `int_size` and
`ptr_size` are each in {1,2,4,8}; every other byte value in 0..255 fails
with `InvalidFieldValue` (checked exhaustively), and on a full message a
bad `CNFG` makes `decode_message` fail with `InvalidFieldValue` before
any following `CALL` is considered or any response encoded. -/
theorem negotiate_field_validation :
    (∀ b : Fin 256,
      ((b.val = 1 ∨ b.val = 2 ∨ b.val = 4 ∨ b.val = 8) →
        negotiate [b.val, 4, 0, 0] = .ok ⟨b.val, 4, .Little⟩ ∧
        negotiate [4, b.val, 0, 0] = .ok ⟨4, b.val, .Little⟩) ∧
      (¬(b.val = 1 ∨ b.val = 2 ∨ b.val = 4 ∨ b.val = 8) →
        negotiate [b.val, 4, 0, 0] = .error .InvalidFieldValue ∧
        negotiate [4, b.val, 0, 0] = .error .InvalidFieldValue)) ∧
    decode_message malformed_cnfg_huge_with_call = .error .InvalidFieldValue := by
  refine ⟨?_, by decide⟩
  decide

theorem negotiate_field_validation_wit :
    negotiate [255, 4, 0, 0] = .error .InvalidFieldValue ∧
    negotiate [0, 4, 0, 0] = .error .InvalidFieldValue ∧
    negotiate [4, 4, 0, 0] = .ok ⟨4, 4, .Little⟩ :=
  ⟨((negotiate_field_validation.1 255).2 (by decide)).1,
   ((negotiate_field_validation.1 0).2 (by decide)).1,
   ((negotiate_field_validation.1 4).1 (by decide)).1⟩

/-- C3: any buffer with a readable `RIFF` header whose declared container
size plus the 8-byte header exceeds the physical buffer length makes
`decode_message` fail with `SizeExceedsBuffer`; in particular the 12-byte
corpus buffers with sizes 0xFFFFFFFF ("negative") and 1000 (huge) fail
identically, both treated as large unsigned values. -/
theorem container_size_exceeds_claim :
    (∀ buf : List Nat, 8 ≤ buf.length → buf.take 4 = tagRIFF →
      buf.length < 8 + natFromLEBytes ((buf.drop 4).take 4) →
      decode_message buf = .error .SizeExceedsBuffer) ∧
    decode_message malformed_riff_size_neg1 = .error .SizeExceedsBuffer ∧
    decode_message malformed_riff_size_huge = .error .SizeExceedsBuffer := by
  refine ⟨?_, by decide, by decide⟩
  intro buf h8 hriff hsz
  have hlen : ¬ buf.length < 8 := by omega
  simp [decode_message, hlen, hriff, hsz]

theorem container_size_exceeds_claim_wit :
    decode_message malformed_riff_size_neg1 = .error .SizeExceedsBuffer :=
  container_size_exceeds_claim.1 malformed_riff_size_neg1
    (by decide) (by decide) (by decide)

/-- C5: the per-message state machine: a `CALL` chunk read while no
configuration has been negotiated (the `Start` state) fails with
`ConfigurationMissing`, and a second `CNFG` chunk read while a
configuration already exists is accepted and simply replaces it
(last-write-wins), the walk continuing with the new configuration. -/
theorem state_machine_claim :
    (∀ fuel buf limit cursor ck c2,
      next_chunk buf limit cursor = .ok (ck, c2) → ck.identifier = tagCALL →
      walkChunks (fuel + 1) buf limit cursor none =
        .error .ConfigurationMissing) ∧
    (∀ fuel buf limit cursor ck c2 cfgOld cfgNew,
      next_chunk buf limit cursor = .ok (ck, c2) → ck.identifier = tagCNFG →
      negotiate ck.payload = .ok cfgNew →
      walkChunks (fuel + 1) buf limit cursor (some cfgOld) =
        walkChunks fuel buf limit c2 (some cfgNew)) := by
  constructor
  · intro fuel buf limit cursor ck c2 hnc hid
    have hle := (next_chunk_ok_char hnc).1
    have hcur : ¬ limit ≤ cursor := by omega
    have hne : tagCALL ≠ tagCNFG := by decide
    simp [walkChunks, hcur, hnc, hid, hne]
  · intro fuel buf limit cursor ck c2 cfgOld cfgNew hnc hid hneg
    have hle := (next_chunk_ok_char hnc).1
    have hcur : ¬ limit ≤ cursor := by omega
    simp [walkChunks, hcur, hnc, hid, hneg]

theorem state_machine_claim_wit :
    walkChunks 5 (fourcc "RIFF" ++ u32le 12 ++ fourcc "SEMI" ++
        fourcc "CALL" ++ u32le 0) 20 12 none =
      .error .ConfigurationMissing ∧
    walkChunks 5 (fourcc "RIFF" ++ u32le 16 ++ fourcc "SEMI" ++
        fourcc "CNFG" ++ u32le 4 ++ [1, 2, 0, 0]) 24 12
        (some ⟨8, 8, .Big⟩) =
      walkChunks 4 (fourcc "RIFF" ++ u32le 16 ++ fourcc "SEMI" ++
        fourcc "CNFG" ++ u32le 4 ++ [1, 2, 0, 0]) 24 24
        (some ⟨1, 2, .Little⟩) :=
  ⟨state_machine_claim.1 4 (fourcc "RIFF" ++ u32le 12 ++ fourcc "SEMI" ++
      fourcc "CALL" ++ u32le 0) 20 12 ⟨tagCALL, 0, []⟩ 20 (by decide) rfl,
   state_machine_claim.2 4 (fourcc "RIFF" ++ u32le 16 ++ fourcc "SEMI" ++
      fourcc "CNFG" ++ u32le 4 ++ [1, 2, 0, 0]) 24 12
      ⟨tagCNFG, 4, [1, 2, 0, 0]⟩ 24 ⟨8, 8, .Big⟩ ⟨1, 2, .Little⟩
      (by decide) rfl (by decide)⟩

/-- C6: a `CNFG` chunk whose declared size is below 4 yields a payload
that `negotiate` rejects with `IncompletePayload`, while a 4-byte payload
with valid fields succeeds; the declared-size-0 `CNFG` corpus buffer is
read by the Chunk Reader as a structurally valid chunk with an empty
payload and is rejected only by the consuming negotiator. -/
theorem cnfg_size_semantics :
    (∀ buf limit cursor ck c2, limit ≤ buf.length →
      next_chunk buf limit cursor = .ok (ck, c2) → ck.declared_size < 4 →
      negotiate ck.payload = .error .IncompletePayload) ∧
    negotiate [4, 4, 0, 0] = .ok ⟨4, 4, .Little⟩ ∧
    next_chunk malformed_cnfg_size_zero 20 12 = .ok (⟨tagCNFG, 0, []⟩, 20) ∧
    decode_message malformed_cnfg_size_zero = .error .IncompletePayload := by
  refine ⟨?_, by decide, by decide, by decide⟩
  intro buf limit cursor ck c2 hbl h hlt
  obtain ⟨h1, h2, h3, h4, h5, h6, h7⟩ := next_chunk_ok_char h
  have hplen : ck.payload.length < 4 := by
    rw [h5]
    simp only [List.length_take, List.length_drop]
    omega
  simp [negotiate, hplen]

theorem cnfg_size_semantics_wit :
    negotiate ([] : List Nat) = .error .IncompletePayload :=
  cnfg_size_semantics.1 malformed_cnfg_size_zero 20 12 ⟨tagCNFG, 0, []⟩ 20
    (by decide) (by decide) (by decide)

/-- C7: for a successfully read chunk with odd declared size the reader
advances the cursor past the payload plus exactly one padding byte (the
payload itself has exactly `declared_size` bytes, so the padding byte
belongs to no chunk's payload), and when the padding byte is not
available inside the container the reader fails with `Truncated`. -/
theorem odd_size_padding_claim :
    (∀ buf limit cursor ck c2, limit ≤ buf.length →
      next_chunk buf limit cursor = .ok (ck, c2) → ck.declared_size % 2 = 1 →
      c2 = cursor + 8 + ck.declared_size + 1 ∧
      ck.payload.length = ck.declared_size ∧
      cursor + 8 + ck.declared_size + 1 ≤ limit) ∧
    (∀ buf limit cursor, cursor + 8 ≤ limit →
      readChunkSize buf cursor % 2 = 1 →
      cursor + 8 + readChunkSize buf cursor < 2 ^ 32 →
      limit = cursor + 8 + readChunkSize buf cursor →
      next_chunk buf limit cursor = .error .Truncated) := by
  constructor
  · intro buf limit cursor ck c2 hbl h hodd
    obtain ⟨h1, h2, h3, h4, h5, h6, h7⟩ := next_chunk_ok_char h
    refine ⟨by omega, ?_, h7 hodd⟩
    rw [h5]
    simp only [List.length_take, List.length_drop]
    omega
  · intro buf limit cursor h8 hodd hov hlim
    have hA : ¬ limit < cursor + 8 := by omega
    have hB : ¬ (4294967296 : Nat) ≤ cursor + 8 + readChunkSize buf cursor := by
      omega
    have hC : ¬ limit < cursor + 8 + readChunkSize buf cursor := by omega
    have hD : readChunkSize buf cursor % 2 = 1 ∧
        limit < cursor + 8 + readChunkSize buf cursor + 1 := ⟨hodd, by omega⟩
    simp [next_chunk, hA, hB, hC, hD]

theorem odd_size_padding_claim_wit :
    next_chunk (fourcc "RIFF" ++ u32le 16 ++ fourcc "SEMI" ++
        fourcc "CNFG" ++ u32le 3 ++ [4, 4, 0, 0]) 24 12 =
      .ok (⟨tagCNFG, 3, [4, 4, 0]⟩, 24) ∧
    (24 = 12 + 8 + 3 + 1 ∧ ([4, 4, 0] : List Nat).length = 3 ∧
      12 + 8 + 3 + 1 ≤ 24) ∧
    next_chunk (fourcc "RIFF" ++ u32le 15 ++ fourcc "SEMI" ++
        fourcc "CNFG" ++ u32le 3 ++ [4, 4, 0]) 23 12 = .error .Truncated :=
  ⟨by decide,
   odd_size_padding_claim.1 (fourcc "RIFF" ++ u32le 16 ++ fourcc "SEMI" ++
      fourcc "CNFG" ++ u32le 3 ++ [4, 4, 0, 0]) 24 12
      ⟨tagCNFG, 3, [4, 4, 0]⟩ 24 (by decide) (by decide) (by decide),
   odd_size_padding_claim.2 (fourcc "RIFF" ++ u32le 15 ++ fourcc "SEMI" ++
      fourcc "CNFG" ++ u32le 3 ++ [4, 4, 0]) 23 12
      (by decide) (by decide) (by decide) (by decide)⟩

/-- C8: `decode_message` applied to the exact 12-byte buffer
`"RIFF" + u32le 4 + "SEMI"` succeeds and yields zero chunks: declared
container size 4 (form type only) is the minimum valid message, and its
chunk region `[12, 12)` holds no chunks at all. -/
theorem minimum_message_claim :
    decode_message malformed_riff_size_min = .ok [] ∧
    list_chunks (malformed_riff_size_min.length + 1) malformed_riff_size_min
      12 12 = .ok [] :=
  ⟨by decide, by decide⟩

/-- C4: round trip: for every valid configuration (`int_size` and
`ptr_size` in {1,2,4,8}, a recognized byte order) and every integer pair
representable in `int_size` bytes, parsing the bytes produced by
`encode_return value errno cfg` back through the chunk reader and the
`RETN` payload decoder yields exactly `(value, errno)`. -/
theorem retn_round_trip (cfg : Configuration)
    (hint : cfg.int_size = 1 ∨ cfg.int_size = 2 ∨ cfg.int_size = 4 ∨
      cfg.int_size = 8)
    (hptr : cfg.ptr_size = 1 ∨ cfg.ptr_size = 2 ∨ cfg.ptr_size = 4 ∨
      cfg.ptr_size = 8)
    (value errno : Nat)
    (hv : value < 2 ^ (8 * cfg.int_size)) (he : errno < 2 ^ (8 * cfg.int_size)) :
    decode_response (encode_return value errno cfg) cfg = .ok (value, errno) := by
  have hk1 : 1 ≤ cfg.int_size := by rcases hint with h | h | h | h <;> omega
  have hk8 : cfg.int_size ≤ 8 := by rcases hint with h | h | h | h <;> omega
  have hpad : (if (2 * cfg.int_size) % 2 = 1 then ([0] : List Nat) else []) = [] := by
    simp [Nat.mul_mod_right]
  have hCl : (encInt cfg.endianness cfg.int_size value).length = cfg.int_size :=
    encInt_length _ _ _
  have hDl : (encInt cfg.endianness cfg.int_size errno).length = cfg.int_size :=
    encInt_length _ _ _
  have hBl : (natToLEBytes 4 (2 * cfg.int_size)).length = 4 :=
    natToLEBytes_length _ _
  have hAl : (tagRETN).length = 4 := rfl
  have hbuf : encode_return value errno cfg =
      tagRETN ++ (natToLEBytes 4 (2 * cfg.int_size) ++
        (encInt cfg.endianness cfg.int_size value ++
          encInt cfg.endianness cfg.int_size errno)) := by
    simp [encode_return, hpad]
  have hlen : (encode_return value errno cfg).length = 8 + 2 * cfg.int_size := by
    rw [hbuf]
    simp [hCl, hDl, hBl, hAl]
    omega
  have h4 : (encode_return value errno cfg).drop 4 =
      natToLEBytes 4 (2 * cfg.int_size) ++
        (encInt cfg.endianness cfg.int_size value ++
          encInt cfg.endianness cfg.int_size errno) := by
    rw [hbuf]
    exact List.drop_left' hAl
  have hsz : readChunkSize (encode_return value errno cfg) 0 = 2 * cfg.int_size := by
    unfold readChunkSize
    rw [show (0 + 4 : Nat) = 4 from rfl, h4, List.take_left' hBl,
      natFromLEBytes_natToLEBytes]
    refine Nat.mod_eq_of_lt ?_
    have h32 : (2 : Nat) ^ (8 * 4) = 4294967296 := by norm_num
    rw [h32]
    omega
  have hid : ((encode_return value errno cfg).drop 0).take 4 = tagRETN := by
    rw [List.drop_zero, hbuf]
    exact List.take_left' hAl
  have h8 : (encode_return value errno cfg).drop 8 =
      encInt cfg.endianness cfg.int_size value ++
        encInt cfg.endianness cfg.int_size errno := by
    rw [hbuf, ← List.append_assoc]
    refine List.drop_left' ?_
    simp [hAl, hBl]
  have hpair : (encInt cfg.endianness cfg.int_size value ++
      encInt cfg.endianness cfg.int_size errno).length = 2 * cfg.int_size := by
    simp [hCl, hDl]
    omega
  have hpay : ((encode_return value errno cfg).drop 8).take (2 * cfg.int_size) =
      encInt cfg.endianness cfg.int_size value ++
        encInt cfg.endianness cfg.int_size errno := by
    rw [h8, ← hpair, List.take_length]
  have hA : ¬ (encode_return value errno cfg).length < 0 + 8 := by omega
  have hB : ¬ (4294967296 : Nat) ≤
      0 + 8 + readChunkSize (encode_return value errno cfg) 0 := by
    rw [hsz]
    omega
  have hC : ¬ (encode_return value errno cfg).length <
      0 + 8 + readChunkSize (encode_return value errno cfg) 0 := by
    rw [hsz]
    omega
  have hD : ¬ (readChunkSize (encode_return value errno cfg) 0 % 2 = 1 ∧
      (encode_return value errno cfg).length <
        0 + 8 + readChunkSize (encode_return value errno cfg) 0 + 1) := by
    rw [hsz]
    rintro ⟨h1, _⟩
    omega
  have hB2 : ¬ (4294967296 : Nat) ≤ 8 + 2 * cfg.int_size := by omega
  have hC2 : ¬ (encode_return value errno cfg).length <
      8 + 2 * cfg.int_size := by omega
  have hid0 : (encode_return value errno cfg).take 4 = tagRETN := by
    rw [hbuf]
    exact List.take_left' hAl
  have hnc : next_chunk (encode_return value errno cfg)
      (encode_return value errno cfg).length 0 =
      .ok (⟨tagRETN, 2 * cfg.int_size,
        encInt cfg.endianness cfg.int_size value ++
          encInt cfg.endianness cfg.int_size errno⟩,
        0 + 8 + 2 * cfg.int_size + (2 * cfg.int_size) % 2) := by
    simp [next_chunk, hA, hB, hC, hD, hsz, hid, hpay, hB2, hC2, hid0]
  have ht1 : (encInt cfg.endianness cfg.int_size value ++
      encInt cfg.endianness cfg.int_size errno).take cfg.int_size =
      encInt cfg.endianness cfg.int_size value := List.take_left' hCl
  have ht2 : (encInt cfg.endianness cfg.int_size value ++
      encInt cfg.endianness cfg.int_size errno).drop cfg.int_size =
      encInt cfg.endianness cfg.int_size errno := List.drop_left' hCl
  have ht3 : (encInt cfg.endianness cfg.int_size errno).take cfg.int_size =
      encInt cfg.endianness cfg.int_size errno :=
    List.take_of_length_le (le_of_eq hDl)
  have hnlt : ¬ (encInt cfg.endianness cfg.int_size value ++
      encInt cfg.endianness cfg.int_size errno).length < 2 * cfg.int_size := by
    rw [hpair]
    omega
  unfold decode_response
  rw [hnc]
  dsimp only
  rw [if_pos rfl]
  unfold decode_retn
  rw [if_neg hnlt, ht1, ht2, ht3, decInt_encInt _ _ _ hv,
    decInt_encInt _ _ _ he]

theorem retn_round_trip_wit :
    decode_response (encode_return 19 7 ⟨4, 4, .Little⟩) ⟨4, 4, .Little⟩ =
      .ok (19, 7) :=
  retn_round_trip ⟨4, 4, .Little⟩ (by decide) (by decide) 19 7
    (by decide) (by decide)

/-- C9: `u32le` is total on all integers (negative and wider than 32
bits included): it always returns 4 bytes, each below 256, whose
little-endian value is the argument modulo `2 ^ 32`; in particular `-1`
and `0xFFFFFFFF` encode to the identical byte string `FF FF FF FF`. -/
theorem u32le_total_claim :
    (∀ val : Int, (u32le val).length = 4 ∧
      ((natFromLEBytes (u32le val) : Nat) : Int) = val % (2 ^ 32 : Int) ∧
      ∀ b ∈ u32le val, b < 256) ∧
    u32le (-1) = u32le 0xFFFFFFFF ∧
    u32le (-1) = [255, 255, 255, 255] := by
  refine ⟨?_, by decide, by decide⟩
  intro val
  have hnn : 0 ≤ val % (2 ^ 32 : Int) := Int.emod_nonneg val (by norm_num)
  have hlt : val % (2 ^ 32 : Int) < 2 ^ 32 := Int.emod_lt_of_pos val (by norm_num)
  refine ⟨natToLEBytes_length _ _, ?_, natToLEBytes_lt_256 _ _⟩
  have h1 : natFromLEBytes (u32le val) = (val % (2 ^ 32 : Int)).toNat := by
    rw [show u32le val = natToLEBytes 4 (val % (2 ^ 32 : Int)).toNat from rfl,
      natFromLEBytes_natToLEBytes]
    refine Nat.mod_eq_of_lt ?_
    have h32 : (2 : Nat) ^ (8 * 4) = 4294967296 := by norm_num
    rw [h32]
    omega
  rw [h1, Int.toNat_of_nonneg hnn]

theorem u32le_total_claim_wit :
    (u32le (-1)).length = 4 ∧
    ((natFromLEBytes (u32le (-1)) : Nat) : Int) = (-1) % (2 ^ 32 : Int) ∧
    (255 : Nat) < 256 :=
  ⟨(u32le_total_claim.1 (-1)).1, (u32le_total_claim.1 (-1)).2.1,
   (u32le_total_claim.1 (-1)).2.2 255 (by decide)⟩

/-- C10: every corpus buffer the generator writes, the `malformed_*`
entries included, begins with the well-formed 12-byte outer framing: the
ASCII bytes `"RIFF"`, a 4-byte little-endian size field (re-encoding its
value with `u32le` reproduces those exact bytes), then the ASCII bytes
`"SEMI"`; only sizes and payloads are malformed, never the outer tag. -/
theorem corpus_outer_framing :
    ∀ e ∈ corpus_entries, 12 ≤ e.length ∧
      e.take 4 = fourcc "RIFF" ∧ (e.drop 8).take 4 = fourcc "SEMI" ∧
      u32le ((natFromLEBytes ((e.drop 4).take 4) : Nat) : Int) =
        (e.drop 4).take 4 := by
  decide

theorem corpus_outer_framing_wit :
    12 ≤ malformed_riff_size_zero.length ∧
    malformed_riff_size_zero.take 4 = fourcc "RIFF" ∧
    (malformed_riff_size_zero.drop 8).take 4 = fourcc "SEMI" ∧
    u32le ((natFromLEBytes ((malformed_riff_size_zero.drop 4).take 4) : Nat) :
        Int) = (malformed_riff_size_zero.drop 4).take 4 :=
  corpus_outer_framing malformed_riff_size_zero (by decide)

end Semihost
